import Mathlib

set_option maxRecDepth 8000
set_option linter.unusedVariables false

/-!
Verification of the Dynatrace monitoring-as-code REST client
(pkg/rest/client.go): the name-to-identity resolution and upsert protocol
of DynatraceClient and its implementation dynatraceClientImpl.

The repository file pkg/rest/client.go delegates to a helper layer
(get, getExistingValuesFromEndpoint, getObjectIdIfAlreadyExists,
upsertDynatraceObject, uploadExtension, deleteDynatraceObject) that is not
part of the sources at hand; those helpers are modelled from the
specification, as marked on each definition. Everything in client.go
itself is translated directly.

The remote platform and the transport are modelled by an explicit Server
state, and every operation also yields the list of HTTP calls it issued,
so that routing and error-propagation statements can be made about the
exact calls performed.
-/

/-- One remote object summary, an (id, name) pair as returned by a list
call (api.Value in pkg/api). -/
structure Value where
  id : String
  name : String
deriving DecidableEq

/-- Result of a successful create or update (api.DynatraceEntity in
pkg/api): the identifier assigned or confirmed by the server. -/
structure DynatraceEntity where
  Id : String
  Name : String
  Description : String
deriving DecidableEq

/-- One configuration API family descriptor (api.Api in pkg/api): a stable
identifier and the mapping from the environment base URL to the family
collection endpoint. -/
structure Api where
  GetId : String
  GetUrlFromEnvironmentUrl : String → String

/-- Handle of the underlying http.Client transport. -/
structure HttpClient where
  handle : Nat
deriving DecidableEq

/-- HTTP method of one transport call. UPLOAD stands for the multipart
upload mechanism of the extension family, which is not a plain JSON POST
or PUT to the generic collection endpoint. -/
inductive Method where
  | GET
  | POST
  | PUT
  | DELETE
  | UPLOAD
deriving DecidableEq

/-- One HTTP call issued against the remote platform. -/
structure HttpCall where
  method : Method
  url : String
  body : String
deriving DecidableEq

/-- Go error value, carrying a message (errors.New in client.go). -/
structure Err where
  msg : String
deriving DecidableEq

/-- Modelled from the spec: one remote configuration object with its
server-facing id, caller-facing name and opaque body. -/
structure Obj where
  id : String
  name : String
  payload : String
deriving DecidableEq

/-- Modelled from the spec: the remote platform state consumed by the
HTTP transport. families maps a collection endpoint URL to the objects of
that family; failing marks URLs on which the transport fails (for example
with HTTP 500); page gives the raw body served for a plain GET; nextId
feeds the ids the server assigns on create. -/
structure Server where
  families : String → List Obj
  failing : String → Bool
  page : String → String
  nextId : Nat

/-- HTTP response as seen by the helper layer: a status code and body. -/
structure Response where
  StatusCode : Nat
  Body : String
deriving DecidableEq

/-- Error value produced when the transport fails on a GET. -/
def listErr (url : String) : Err :=
  { msg := "Response was 500 for GET " ++ url }

/-- Error value produced when the transport fails on an extension upload. -/
def uploadErr (url : String) : Err :=
  { msg := "Response was 500 for UPLOAD " ++ url }

/-- Entity returned alongside a non-nil error. -/
def emptyEntity : DynatraceEntity :=
  { Id := "", Name := "", Description := "" }

/-- Modelled from the spec: missing helper get of the HTTP layer; issues
one GET against the URL and returns the status code and raw body (500 and
an empty body when the transport fails), together with the single call it
made. -/
def get (c : HttpClient) (s : Server) (url token : String) :
    Response × List HttpCall :=
  ((if s.failing url then { StatusCode := 500, Body := "" }
    else { StatusCode := 200, Body := s.page url }),
   [⟨Method.GET, url, ""⟩])

/-- Summaries of a family's objects, as the list endpoint reports them. -/
def valuesOf (os : List Obj) : List Value :=
  os.map (fun o => { id := o.id, name := o.name })

/-- Modelled from the spec: missing helper getExistingValuesFromEndpoint;
issues one GET against the family collection endpoint and parses the full
set of (id, name) summaries; a transport failure is returned as the error
and aborts the operation. -/
def getExistingValuesFromEndpoint (c : HttpClient) (s : Server)
    (apiId url token : String) :
    (Response × List Value × Option Err) × List HttpCall :=
  if s.failing url then
    (({ StatusCode := 500, Body := "" }, [], some (listErr url)),
      [⟨Method.GET, url, ""⟩])
  else
    (({ StatusCode := 200, Body := s.page url },
        valuesOf (s.families url), none),
      [⟨Method.GET, url, ""⟩])

/-- Linear scan of the listed values: id of the first Value whose name
equals the requested name exactly, or the empty string when none does. -/
def scanForId (values : List Value) (name : String) : String :=
  match values.find? (fun v => v.name == name) with
  | some v => v.id
  | none => ""

/-- Modelled from the spec: missing helper getObjectIdIfAlreadyExists;
calls the list endpoint and scans for the first Value whose name equals
the requested name (exact match, case-sensitive), returning its id, or an
empty id when absent; a failure of the list call is propagated and no
further call is made. -/
def getObjectIdIfAlreadyExists (c : HttpClient) (s : Server)
    (apiId url name token : String) :
    (Bool × String × Option Err) × List HttpCall :=
  let r := getExistingValuesFromEndpoint c s apiId url token
  let values := r.1.2.1
  let err := r.1.2.2
  match err with
  | some e => ((false, "", some e), r.2)
  | none =>
    let id := scanForId values name
    ((id != "", id, none), r.2)

/-- Family list with one object appended and the id counter advanced. -/
def createObj (s : Server) (url id name payload : String) : Server :=
  { s with
    families := fun u =>
      if u == url then
        s.families url ++ [{ id := id, name := name, payload := payload }]
      else s.families u,
    nextId := s.nextId + 1 }

/-- Family list with the payload of the object of the given id replaced. -/
def updateObj (s : Server) (url id payload : String) : Server :=
  { s with
    families := fun u =>
      if u == url then
        (s.families url).map (fun o =>
          if o.id == id then { o with payload := payload } else o)
      else s.families u }

/-- Family list with the object of the given id removed. -/
def removeObj (s : Server) (url id : String) : Server :=
  { s with
    families := fun u =>
      if u == url then (s.families url).filter (fun o => o.id != id)
      else s.families u }

/-- Modelled from the spec: missing helper upsertDynatraceObject; resolves
existence of objectName via the same name-scan used by ExistsByName, then
either issues a POST of the payload to the collection endpoint (create)
or a PUT of the payload to endpoint/id (replace in place), returning the
entity of the created or updated object; a failure of the list call is
propagated and no write is attempted. -/
def upsertDynatraceObject (c : HttpClient) (s : Server)
    (fullUrl objectName configType payload apiToken : String) :
    (DynatraceEntity × Option Err) × Server × List HttpCall :=
  let r := getObjectIdIfAlreadyExists c s configType fullUrl objectName apiToken
  let existingObjectId := r.1.2.1
  let err := r.1.2.2
  match err with
  | some e => ((emptyEntity, some e), s, r.2)
  | none =>
    if existingObjectId != "" then
      (({ Id := existingObjectId, Name := objectName, Description := "" }, none),
        updateObj s fullUrl existingObjectId payload,
        r.2 ++ [⟨Method.PUT, fullUrl ++ "/" ++ existingObjectId, payload⟩])
    else
      let newId := "id-" ++ toString s.nextId
      (({ Id := newId, Name := objectName, Description := "" }, none),
        createObj s fullUrl newId objectName payload,
        r.2 ++ [⟨Method.POST, fullUrl, payload⟩])

/-- Modelled from the spec: missing helper uploadExtension; the extension
family does not accept a plain JSON body at the standard collection
endpoint, so the whole call is one multipart UPLOAD (never a plain POST or
PUT to the generic collection endpoint), which creates or replaces the
extension under the given name on the server. -/
def uploadExtension (c : HttpClient) (s : Server)
    (url name payload token : String) :
    (DynatraceEntity × Option Err) × Server × List HttpCall :=
  if s.failing url then
    ((emptyEntity, some (uploadErr url)), s, [⟨Method.UPLOAD, url, payload⟩])
  else
    match (s.families url).find? (fun o => o.name == name) with
    | some o =>
      (({ Id := o.id, Name := name, Description := "" }, none),
        updateObj s url o.id payload, [⟨Method.UPLOAD, url, payload⟩])
    | none =>
      let newId := "id-" ++ toString s.nextId
      (({ Id := newId, Name := name, Description := "" }, none),
        createObj s url newId name payload, [⟨Method.UPLOAD, url, payload⟩])

/-- Modelled from the spec: missing helper deleteDynatraceObject; resolves
the id via the name-scan and issues one DELETE against endpoint/id; a
failure of the list call is propagated; an absent name is a no-op
success. -/
def deleteDynatraceObject (c : HttpClient) (s : Server)
    (apiId name url token : String) :
    Option Err × Server × List HttpCall :=
  let r := getObjectIdIfAlreadyExists c s apiId url name token
  let existingObjectId := r.1.2.1
  let err := r.1.2.2
  match err with
  | some e => (some e, s, r.2)
  | none =>
    if existingObjectId != "" then
      (none, removeObj s url existingObjectId,
        r.2 ++ [⟨Method.DELETE, url ++ "/" ++ existingObjectId, ""⟩])
    else
      (none, s, r.2)

/-- Client session state (struct dynatraceClientImpl, client.go lines
74-78): environment base URL, auth token and transport handle. -/
structure dynatraceClientImpl where
  environmentUrl : String
  token : String
  client : HttpClient
deriving DecidableEq

/-- NewDynatraceClient (client.go lines 81-88). -/
def NewDynatraceClient (environmentUrl token : String) : dynatraceClientImpl :=
  { environmentUrl := environmentUrl, token := token, client := ⟨0⟩ }

/-- Outcome of one client operation: the returned values, the client value
after the call, the remote state after the call and the HTTP calls
issued. -/
structure OpResult (α : Type) where
  result : α
  clientAfter : dynatraceClientImpl
  serverAfter : Server
  calls : List HttpCall

/-- List (client.go lines 89-94). -/
def dynatraceClientImpl.List (d : dynatraceClientImpl) (s : Server)
    (api : Api) : OpResult (List Value × Option Err) :=
  let url := api.GetUrlFromEnvironmentUrl d.environmentUrl
  let r := getExistingValuesFromEndpoint d.client s api.GetId url d.token
  { result := (r.1.2.1, r.1.2.2), clientAfter := d, serverAfter := s,
    calls := r.2 }

/-- ExistsByName (client.go lines 122-126): delegates to
getObjectIdIfAlreadyExists and reports exists as id not equal to the
empty string. -/
def dynatraceClientImpl.ExistsByName (d : dynatraceClientImpl) (s : Server)
    (api : Api) (name : String) : OpResult (Bool × String × Option Err) :=
  let r := getObjectIdIfAlreadyExists d.client s api.GetId
    (api.GetUrlFromEnvironmentUrl d.environmentUrl) name d.token
  let existingObjectId := r.1.2.1
  let err := r.1.2.2
  { result := (existingObjectId != "", existingObjectId, err),
    clientAfter := d, serverAfter := s, calls := r.2 }

/-- ReadById (client.go lines 110-115): one GET against the collection
endpoint, a slash and the id; the error returned to the caller is the
literal nil of line 114, whatever the response was. -/
def dynatraceClientImpl.ReadById (d : dynatraceClientImpl) (s : Server)
    (api : Api) (id : String) : OpResult (Option String × Option Err) :=
  let url := api.GetUrlFromEnvironmentUrl d.environmentUrl ++ "/" ++ id
  let r := get d.client s url d.token
  { result := (some r.1.Body, none), clientAfter := d, serverAfter := s,
    calls := r.2 }

/-- ReadByName (client.go lines 96-108): ExistsByName, then the 404 error
carrying the name, or ReadById on the resolved id. -/
def dynatraceClientImpl.ReadByName (d : dynatraceClientImpl) (s : Server)
    (api : Api) (name : String) : OpResult (Option String × Option Err) :=
  let r1 := d.ExistsByName s api name
  let ex := r1.result.1
  let id := r1.result.2.1
  let err := r1.result.2.2
  match err with
  | some e =>
    { result := (none, some e), clientAfter := r1.clientAfter,
      serverAfter := r1.serverAfter, calls := r1.calls }
  | none =>
    if !ex then
      { result := (none, some { msg := "404 - no config found with name " ++ name }),
        clientAfter := r1.clientAfter, serverAfter := r1.serverAfter,
        calls := r1.calls }
    else
      let r2 := r1.clientAfter.ReadById r1.serverAfter api id
      { result := r2.result, clientAfter := r2.clientAfter,
        serverAfter := r2.serverAfter, calls := r1.calls ++ r2.calls }

/-- DeleteByName (client.go lines 117-120). -/
def dynatraceClientImpl.DeleteByName (d : dynatraceClientImpl) (s : Server)
    (api : Api) (name : String) : OpResult (Option Err) :=
  let r := deleteDynatraceObject d.client s api.GetId name
    (api.GetUrlFromEnvironmentUrl d.environmentUrl) d.token
  { result := r.1, clientAfter := d, serverAfter := r.2.1, calls := r.2.2 }

/-- UpsertByName, receiver method (client.go lines 128-136). The method
declares its string parameters in the order (json, name), while the
DynatraceClient interface (line 60) declares UpsertByName(api, name, json);
dispatch through the interface is positional, so a caller's name argument
arrives in this json parameter and the caller's body in this name
parameter. The body is translated verbatim: extension-family calls branch
into uploadExtension, all others into upsertDynatraceObject. -/
def dynatraceClientImpl.UpsertByName (d : dynatraceClientImpl) (s : Server)
    (api : Api) (json name : String) :
    OpResult (DynatraceEntity × Option Err) :=
  let url := api.GetUrlFromEnvironmentUrl d.environmentUrl
  if api.GetId == "extension" then
    let r := uploadExtension d.client s url name json d.token
    { result := r.1, clientAfter := d, serverAfter := r.2.1, calls := r.2.2 }
  else
    let r := upsertDynatraceObject d.client s url name api.GetId json d.token
    { result := r.1, clientAfter := d, serverAfter := r.2.1, calls := r.2.2 }

/-- Call through the DynatraceClient interface (client.go line 60): the
caller supplies (api, name, json) and the arguments reach the receiver
method positionally. -/
def DynatraceClient.UpsertByName (d : dynatraceClientImpl) (s : Server)
    (api : Api) (name json : String) :
    OpResult (DynatraceEntity × Option Err) :=
  d.UpsertByName s api name json

/-- Alerting-profile family descriptor used as a concrete non-extension
test fixture. -/
def apiAP : Api :=
  { GetId := "alerting-profile",
    GetUrlFromEnvironmentUrl := fun env => env ++ "/ap" }

/-- Extension family descriptor used as a concrete test fixture. -/
def apiExt : Api :=
  { GetId := "extension",
    GetUrlFromEnvironmentUrl := fun env => env ++ "/ext" }

/-- Concrete client instance for environment E. -/
def d0 : dynatraceClientImpl := NewDynatraceClient "E" "tok"

/-- Collection endpoint of the alerting-profile family for environment E. -/
def urlAP : String := "E/ap"

/-- Remote state with no objects and a healthy transport. -/
def sEmpty : Server :=
  { families := fun _ => [], failing := fun _ => false,
    page := fun _ => "", nextId := 0 }

/-- Remote state holding one alerting profile named n1 with id 42. -/
def s1 : Server :=
  { families := fun u =>
      if u == urlAP then [{ id := "42", name := "n1", payload := "old" }] else [],
    failing := fun _ => false, page := fun _ => "", nextId := 0 }

/-- Remote state whose transport fails (HTTP 500) on every URL. -/
def sFail : Server :=
  { families := fun _ => [], failing := fun _ => true,
    page := fun _ => "", nextId := 0 }

/-- Remote state listing objects A (id 1) and B (id 2), the scenario list
of the spec. -/
def sAB : Server :=
  { families := fun u =>
      if u == urlAP then
        [{ id := "1", name := "A", payload := "pa" },
         { id := "2", name := "B", payload := "pb" }]
      else [],
    failing := fun _ => false, page := fun _ => "", nextId := 0 }

/-- Calls issued by an extension upload are exactly one multipart UPLOAD. -/
theorem uploadExtension_calls (c : HttpClient) (s : Server)
    (url name payload token : String) :
    (uploadExtension c s url name payload token).2.2 =
      [⟨Method.UPLOAD, url, payload⟩] := by
  unfold uploadExtension
  by_cases h : s.failing url
  · simp [h]
  · simp only [h, Bool.false_eq_true, if_false]
    cases hf : (s.families url).find? (fun o => o.name == name) <;> simp

/-- C9: for every operation of the client, the session state (environment
base URL, auth token, transport handle) is the same before and after the
call: the client value returned by each operation equals the input client,
so no operation mutates the instance or caches names or ids across
calls. -/
theorem C9_client_state_immutable (d : dynatraceClientImpl) (s : Server)
    (api : Api) (name id json : String) :
    (d.List s api).clientAfter = d
    ∧ (d.ExistsByName s api name).clientAfter = d
    ∧ (d.ReadByName s api name).clientAfter = d
    ∧ (d.ReadById s api id).clientAfter = d
    ∧ (DynatraceClient.UpsertByName d s api name json).clientAfter = d
    ∧ (d.DeleteByName s api name).clientAfter = d := by
  refine ⟨rfl, rfl, ?_, rfl, ?_, rfl⟩
  · unfold dynatraceClientImpl.ReadByName
    dsimp only
    split
    · rfl
    · split <;> rfl
  · unfold DynatraceClient.UpsertByName dynatraceClientImpl.UpsertByName
    dsimp only
    split <;> rfl

/-- C10: the exists flag returned by ExistsByName is true exactly when the
returned id is a non-empty string, for every outcome including error
outcomes, because the flag is computed as the comparison of the id with
the empty string. -/
theorem C10_exists_iff_id_nonempty (d : dynatraceClientImpl) (s : Server)
    (api : Api) (name : String) :
    (d.ExistsByName s api name).result.1 = true ↔
      (d.ExistsByName s api name).result.2.1 ≠ "" := by
  unfold dynatraceClientImpl.ExistsByName
  simp [bne_iff_ne]

/-- C2: dispatch inside UpsertByName is keyed solely on the family
identifier. When api.GetId is the extension identifier the whole call is
the extension upload path and every transport call issued is a multipart
UPLOAD, never a plain JSON POST or PUT to the generic collection endpoint;
for any other identifier the call is exactly the generic JSON upsert
path. -/
theorem C2_upsert_dispatch (d : dynatraceClientImpl) (s : Server)
    (api : Api) (name json : String) :
    (api.GetId = "extension" →
      DynatraceClient.UpsertByName d s api name json =
        { result := (uploadExtension d.client s
              (api.GetUrlFromEnvironmentUrl d.environmentUrl) json name d.token).1,
          clientAfter := d,
          serverAfter := (uploadExtension d.client s
              (api.GetUrlFromEnvironmentUrl d.environmentUrl) json name d.token).2.1,
          calls := (uploadExtension d.client s
              (api.GetUrlFromEnvironmentUrl d.environmentUrl) json name d.token).2.2 }
      ∧ ∀ call ∈ (DynatraceClient.UpsertByName d s api name json).calls,
          call.method = Method.UPLOAD)
    ∧ (api.GetId ≠ "extension" →
      DynatraceClient.UpsertByName d s api name json =
        { result := (upsertDynatraceObject d.client s
              (api.GetUrlFromEnvironmentUrl d.environmentUrl) json api.GetId name d.token).1,
          clientAfter := d,
          serverAfter := (upsertDynatraceObject d.client s
              (api.GetUrlFromEnvironmentUrl d.environmentUrl) json api.GetId name d.token).2.1,
          calls := (upsertDynatraceObject d.client s
              (api.GetUrlFromEnvironmentUrl d.environmentUrl) json api.GetId name d.token).2.2 }) := by
  constructor
  · intro h
    constructor
    · unfold DynatraceClient.UpsertByName dynatraceClientImpl.UpsertByName
      simp [h]
    · intro call hcall
      unfold DynatraceClient.UpsertByName dynatraceClientImpl.UpsertByName at hcall
      simp [h] at hcall
      rw [uploadExtension_calls] at hcall
      simp at hcall
      rw [hcall]
  · intro h
    unfold DynatraceClient.UpsertByName dynatraceClientImpl.UpsertByName
    simp [h]

/-- Characterization of the linear scan: find? returns some v exactly when
the list splits as a prefix without any match, then v itself matching. -/
theorem find?_eq_some_first (p : Value → Bool) (vs : List Value) (v : Value) :
    vs.find? p = some v ↔
      ∃ l1 l2, vs = l1 ++ v :: l2 ∧ p v = true ∧ ∀ u ∈ l1, p u = false := by
  induction vs with
  | nil => simp
  | cons a as ih =>
    by_cases h : p a = true
    · rw [List.find?_cons_of_pos _ h]
      constructor
      · intro h2
        obtain rfl : a = v := by injection h2
        exact ⟨[], as, rfl, h, by simp⟩
      · rintro ⟨l1, l2, heq, hv, hall⟩
        cases l1 with
        | nil =>
          simp only [List.nil_append, List.cons.injEq] at heq
          rw [heq.1]
        | cons b l1 =>
          have hb : p b = false := hall b (by simp)
          simp only [List.cons_append, List.cons.injEq] at heq
          rw [heq.1] at h
          rw [h] at hb
          cases hb
    · rw [List.find?_cons_of_neg _ h]
      rw [ih]
      constructor
      · rintro ⟨l1, l2, heq, hv, hall⟩
        refine ⟨a :: l1, l2, by simp [heq], hv, ?_⟩
        intro u hu
        rcases List.mem_cons.mp hu with hu1 | hu2
        · rw [hu1]
          exact Bool.not_eq_true _ ▸ Bool.of_not_eq_true h
        · exact hall u hu2
      · rintro ⟨l1, l2, heq, hv, hall⟩
        cases l1 with
        | nil =>
          simp only [List.nil_append, List.cons.injEq] at heq
          rw [heq.1] at h
          exact absurd hv h
        | cons b l1 =>
          simp only [List.cons_append, List.cons.injEq] at heq
          exact ⟨l1, l2, heq.2, hv, fun u hu => hall u (by simp [hu])⟩

/-- Result of ExistsByName on a healthy transport: the scan of the listed
values, its id, and no error. -/
theorem ExistsByName_result_ok (d : dynatraceClientImpl) (s : Server)
    (api : Api) (name : String)
    (hfail : s.failing (api.GetUrlFromEnvironmentUrl d.environmentUrl) = false) :
    (d.ExistsByName s api name).result =
      (scanForId (valuesOf
          (s.families (api.GetUrlFromEnvironmentUrl d.environmentUrl))) name != "",
       scanForId (valuesOf
          (s.families (api.GetUrlFromEnvironmentUrl d.environmentUrl))) name,
       none) := by
  unfold dynatraceClientImpl.ExistsByName getObjectIdIfAlreadyExists
    getExistingValuesFromEndpoint
  dsimp only
  rw [hfail]
  simp

/-- Scan of a list without any exact match yields the empty id. -/
theorem scanForId_eq_empty (vs : List Value) (name : String)
    (h : ∀ v ∈ vs, v.name ≠ name) : scanForId vs name = "" := by
  unfold scanForId
  rw [List.find?_eq_none.mpr]
  intro v hv
  simp [h v hv]

/-- C6: a negative lookup is not an error: whenever the transport is
healthy and no object of the family carries the requested name,
ExistsByName returns exists false, an empty id and a nil error. -/
theorem C6_ExistsByName_negative (d : dynatraceClientImpl) (s : Server)
    (api : Api) (name : String)
    (hfail : s.failing (api.GetUrlFromEnvironmentUrl d.environmentUrl) = false)
    (habs : ∀ o ∈ s.families (api.GetUrlFromEnvironmentUrl d.environmentUrl),
      o.name ≠ name) :
    (d.ExistsByName s api name).result = (false, "", none) := by
  rw [ExistsByName_result_ok d s api name hfail]
  have hscan : scanForId (valuesOf
      (s.families (api.GetUrlFromEnvironmentUrl d.environmentUrl))) name = "" := by
    apply scanForId_eq_empty
    intro v hv
    simp only [valuesOf, List.mem_map] at hv
    obtain ⟨o, ho, rfl⟩ := hv
    exact habs o ho
  rw [hscan]
  decide

/-- C6 witness: on an empty remote family, looking up an absent name gives
exists false, empty id and nil error. -/
theorem C6_ExistsByName_negative_witness :
    (d0.ExistsByName sEmpty apiAP "nope").result = (false, "", none) :=
  C6_ExistsByName_negative d0 sEmpty apiAP "nope" (by decide) (by decide)

/-- C7: when the list call fails, ExistsByName returns exactly the error
of that underlying list call (unchanged), and the only HTTP call the
operation performed is the single list GET. -/
theorem C7_ExistsByName_list_failure (d : dynatraceClientImpl) (s : Server)
    (api : Api) (name : String)
    (hfail : s.failing (api.GetUrlFromEnvironmentUrl d.environmentUrl) = true) :
    (d.ExistsByName s api name).result.2.2 =
      (getExistingValuesFromEndpoint d.client s api.GetId
        (api.GetUrlFromEnvironmentUrl d.environmentUrl) d.token).1.2.2
    ∧ (d.ExistsByName s api name).result.2.2 =
      some (listErr (api.GetUrlFromEnvironmentUrl d.environmentUrl))
    ∧ (d.ExistsByName s api name).calls =
      [⟨Method.GET, api.GetUrlFromEnvironmentUrl d.environmentUrl, ""⟩] := by
  unfold dynatraceClientImpl.ExistsByName getObjectIdIfAlreadyExists
    getExistingValuesFromEndpoint
  dsimp only
  rw [hfail]
  simp

/-- C7 witness: with the transport failing on every URL, ExistsByName
surfaces the 500 error of the list GET and issues no further call. -/
theorem C7_ExistsByName_list_failure_witness :
    (d0.ExistsByName sFail apiAP "n1").result.2.2 = some (listErr urlAP)
    ∧ (d0.ExistsByName sFail apiAP "n1").calls =
      [⟨Method.GET, urlAP, ""⟩] := by
  have h := C7_ExistsByName_list_failure d0 sFail apiAP "n1" (by decide)
  refine ⟨?_, ?_⟩
  · rw [h.2.1]; decide
  · rw [h.2.2]; decide

/-- C8: the name-to-id resolution used by ExistsByName is the linear scan
of the listed values, and the scan matches a Value exactly when its name
equals the requested name by exact string equality (hence case- and
whitespace-sensitive), taking the first match in list order when several
values match. -/
theorem C8_name_scan_first_exact (d : dynatraceClientImpl) (s : Server)
    (api : Api) (name : String) :
    (∀ (vs : List Value) (v : Value),
      vs.find? (fun u => u.name == name) = some v ↔
        ∃ l1 l2, vs = l1 ++ v :: l2 ∧ v.name = name ∧ ∀ u ∈ l1, u.name ≠ name)
    ∧ (s.failing (api.GetUrlFromEnvironmentUrl d.environmentUrl) = false →
      (d.ExistsByName s api name).result.2.1 =
        scanForId (valuesOf
          (s.families (api.GetUrlFromEnvironmentUrl d.environmentUrl))) name) := by
  constructor
  · intro vs v
    rw [find?_eq_some_first]
    constructor
    · rintro ⟨l1, l2, heq, hv, hall⟩
      exact ⟨l1, l2, heq, by simpa using hv,
        fun u hu => by simpa using hall u hu⟩
    · rintro ⟨l1, l2, heq, hv, hall⟩
      exact ⟨l1, l2, heq, by simpa using hv,
        fun u hu => by simpa using hall u hu⟩
  · intro hfail
    rw [ExistsByName_result_ok d s api name hfail]

/-- C8 witness: on the spec scenario list of objects A (id 1) and B
(id 2), the resolution for B returns id 2. -/
theorem C8_name_scan_first_exact_witness :
    (d0.ExistsByName sAB apiAP "B").result.2.1 = "2" := by
  have h := (C8_name_scan_first_exact d0 sAB apiAP "B").2 (by decide)
  rw [h]
  decide

/-- C5: ReadByName is the exact composition of ExistsByName and ReadById:
an error of the existence check is returned unchanged with no further
call; an absent name yields the 404 error carrying the requested name with
no further call; a resolved name yields exactly the result of ReadById on
the resolved id, after the calls of the existence check. -/
theorem C5_ReadByName_composition (d : dynatraceClientImpl) (s : Server)
    (api : Api) (name : String) :
    (∀ e, (d.ExistsByName s api name).result.2.2 = some e →
      d.ReadByName s api name =
        { result := (none, some e), clientAfter := d, serverAfter := s,
          calls := (d.ExistsByName s api name).calls })
    ∧ ((d.ExistsByName s api name).result.2.2 = none →
       (d.ExistsByName s api name).result.1 = false →
      d.ReadByName s api name =
        { result := (none,
            some { msg := "404 - no config found with name " ++ name }),
          clientAfter := d, serverAfter := s,
          calls := (d.ExistsByName s api name).calls })
    ∧ ((d.ExistsByName s api name).result.2.2 = none →
       (d.ExistsByName s api name).result.1 = true →
      d.ReadByName s api name =
        { result := (d.ReadById s api
            (d.ExistsByName s api name).result.2.1).result,
          clientAfter := d, serverAfter := s,
          calls := (d.ExistsByName s api name).calls ++
            (d.ReadById s api
              (d.ExistsByName s api name).result.2.1).calls }) := by
  refine ⟨?_, ?_, ?_⟩
  · intro e he
    unfold dynatraceClientImpl.ReadByName
    dsimp only
    rw [he]
    rfl
  · intro he hex
    unfold dynatraceClientImpl.ReadByName
    dsimp only
    rw [he, hex]
    rfl
  · intro he hex
    unfold dynatraceClientImpl.ReadByName
    dsimp only
    rw [he, hex]
    rfl

/-- C5 witness: the three branches at concrete inputs: a failing list call
propagates its error; an absent name yields the 404 error carrying the
name; a present name returns exactly the ReadById body. -/
theorem C5_ReadByName_composition_witness :
    (d0.ReadByName sFail apiAP "n1").result = (none, some (listErr urlAP))
    ∧ (d0.ReadByName sEmpty apiAP "n1").result =
      (none, some { msg := "404 - no config found with name n1" })
    ∧ (d0.ReadByName s1 apiAP "n1").result = (some "", none) := by
  refine ⟨?_, ?_, ?_⟩
  · have h := (C5_ReadByName_composition d0 sFail apiAP "n1").1
      (listErr urlAP) (by decide)
    rw [h]
  · have h := (C5_ReadByName_composition d0 sEmpty apiAP "n1").2.1
      (by decide) (by decide)
    rw [h]
    decide
  · have h := (C5_ReadByName_composition d0 s1 apiAP "n1").2.2
      (by decide) (by decide)
    rw [h]
    decide

/-- C2 witness: an extension-family upsert issues exactly one multipart
UPLOAD, and a non-extension upsert runs the generic path (list GET then
POST). -/
theorem C2_upsert_dispatch_witness :
    (DynatraceClient.UpsertByName d0 sEmpty apiExt "n1" "bodyA").calls =
      [⟨Method.UPLOAD, "E/ext", "n1"⟩]
    ∧ (DynatraceClient.UpsertByName d0 sEmpty apiAP "n1" "bodyA").calls =
      [⟨Method.GET, urlAP, ""⟩, ⟨Method.POST, urlAP, "n1"⟩] := by
  constructor
  · have h := ((C2_upsert_dispatch d0 sEmpty apiExt "n1" "bodyA").1 rfl).1
    rw [h]
    decide
  · have h := (C2_upsert_dispatch d0 sEmpty apiAP "n1" "bodyA").2 (by decide)
    rw [h]
    decide

/-- C1: evaluation of the code at a failing input. Through the interface
the caller passes name n1 and body newBody while an object named n1 (id
42) is already present. The claim requires the name-scan to use n1 and the
body newBody to be forwarded unmodified (here: a PUT of newBody to
endpoint/42); the code instead scans for newBody (absent) and POSTs the
name n1 as the body, leaving the object n1 untouched and creating a second
object named newBody whose content is the string n1. -/
theorem C1_upsert_swaps_name_and_body :
    (DynatraceClient.UpsertByName d0 s1 apiAP "n1" "newBody").calls =
      [⟨Method.GET, urlAP, ""⟩, ⟨Method.POST, urlAP, "n1"⟩]
    ∧ ((DynatraceClient.UpsertByName d0 s1 apiAP "n1" "newBody").serverAfter.families urlAP) =
      [{ id := "42", name := "n1", payload := "old" },
       { id := "id-0", name := "newBody", payload := "n1" }] := by
  exact ⟨by decide, by decide⟩

/-- C3: evaluation of the code at a failing input. Upserting (n1, bodyA)
and then (n1, bodyB) against an initially empty family leaves zero remote
objects named n1 (the claim requires exactly one, with content bodyB): the
parameter swap makes each call create an object named after the body
whose content is the name. -/
theorem C3_upsert_not_idempotent_under_name_reuse :
    (let r1 := DynatraceClient.UpsertByName d0 sEmpty apiAP "n1" "bodyA"
     let r2 := DynatraceClient.UpsertByName r1.clientAfter r1.serverAfter
       apiAP "n1" "bodyB"
     ((r2.serverAfter.families urlAP).filter (fun o => o.name == "n1")).length = 0
     ∧ r2.serverAfter.families urlAP =
       [{ id := "id-0", name := "bodyA", payload := "n1" },
        { id := "id-1", name := "bodyB", payload := "n1" }]) := by
  decide

/-- C4: ReadById always issues exactly one GET against the collection
endpoint, a slash and the id, but returns a nil error unconditionally
(line 114 of client.go returns the body with a literal nil): at the
failing input where the transport answers 500 on that URL, the call still
returns a body with a nil error. -/
theorem C4_ReadById_swallows_transport_error :
    (∀ (d : dynatraceClientImpl) (s : Server) (api : Api) (id : String),
      (d.ReadById s api id).calls =
        [⟨Method.GET,
          api.GetUrlFromEnvironmentUrl d.environmentUrl ++ "/" ++ id, ""⟩]
      ∧ (d.ReadById s api id).result.2 = none)
    ∧ (d0.ReadById sFail apiAP "42").result = (some "", none) := by
  constructor
  · intro d s api id
    exact ⟨rfl, rfl⟩
  · decide
